import Mathlib

/-!
Verification development for a deductive 9×9 sudoku solver.

The Python source stores boards as dictionaries keyed by coordinate pairs
over the fixed 9×9 grid; we embed boards as total functions from coordinates,
with the 81 grid coordinates enumerated exactly in the source's iteration
order.  Mark dictionaries returned by the move algorithms
(Python defaultdict-of-sets) are embedded as total functions that are empty
off the dictionary's key set, so dict update/union becomes pointwise union.
-/

/-- Coordinate pair (row, column), as in boards.py. -/
abbrev Coord := ℕ × ℕ

/-- Set of marks at one cell (Python set of ints). -/
abbrev Marks := Finset ℕ

/-- MarkedBoard data: maps every coordinate to its mark set (boards.py,
MarkedBoard.data; cells outside the 9×9 grid do not occur in the dict and are
modelled as empty). -/
abbrev MarkedBoard := Coord → Marks

/-- GameBoard data: maps every coordinate to an optional digit (boards.py,
GameBoard.data). -/
abbrev GameBoard := Coord → Option ℕ

/-- Incremental marks produced by a move (moves.py NewMarks =
Dict[Coord, Marks], a defaultdict of sets; absent keys are empty). -/
abbrev NewMarks := Coord → Marks

/-- FULL_MARKS in moves.py, identical to MarkedBoard.all_marks in boards.py:
the digit set 1..9. -/
def FULL_MARKS : Finset ℕ := {1, 2, 3, 4, 5, 6, 7, 8, 9}

/-- itertools.product of two lists, in row-major order. -/
def listProd (xs : List α) (ys : List β) : List (α × β) :=
  xs.flatMap (fun x => ys.map (fun y => (x, y)))

/-- range(9), the row/column index range. -/
def range9 : List ℕ := List.range 9

/-- range(3), the box index range. -/
def range3 : List ℕ := List.range 3

/-- range(1, 10), the digit range used by every search. -/
def digitRange : List ℕ := List.range' 1 9

/-- The 81 grid coordinates, in the row-major order of
BoardIteratorComponent.iter_board. -/
def allCoords : List Coord := listProd range9 range9

/-- iter_board: all 81 cells with their values, row-major (boards.py). -/
def iter_board (b : Coord → α) : List (Coord × α) :=
  allCoords.map (fun c => (c, b c))

/-- iter_row: the cells of one row, increasing column (boards.py). -/
def iter_row (b : Coord → α) (row : ℕ) : List (Coord × α) :=
  range9.map (fun j => ((row, j), b (row, j)))

/-- iter_column: the cells of one column, increasing row (boards.py). -/
def iter_column (b : Coord → α) (column : ℕ) : List (Coord × α) :=
  range9.map (fun i => ((i, column), b (i, column)))

/-- iter_box: the cells of box (b0, b1), row-major within the box
(boards.py). -/
def iter_box (b : Coord → α) (box : ℕ × ℕ) : List (Coord × α) :=
  (listProd (range3.map (fun i => 3 * box.1 + i)) (range3.map (fun j => 3 * box.2 + j))).map
    (fun c => (c, b c))

/-- iter_row_containing (boards.py). -/
def iter_row_containing (b : Coord → α) (coords : Coord) : List (Coord × α) :=
  iter_row b coords.1

/-- iter_column_containing (boards.py). -/
def iter_column_containing (b : Coord → α) (coords : Coord) : List (Coord × α) :=
  iter_column b coords.2

/-- iter_box_containing (boards.py). -/
def iter_box_containing (b : Coord → α) (coords : Coord) : List (Coord × α) :=
  iter_box b (coords.1 / 3, coords.2 / 3)

/-- iter_boxes_in_row: the three box-aligned thirds of a row (boards.py). -/
def iter_boxes_in_row (b : Coord → α) (row : ℕ) : List (List α) :=
  let r := (iter_row b row).map Prod.snd
  range3.map (fun i => (r.drop (3 * i)).take 3)

/-- iter_boxes_in_column: the three box-aligned thirds of a column
(boards.py). -/
def iter_boxes_in_column (b : Coord → α) (column : ℕ) : List (List α) :=
  let col := (iter_column b column).map Prod.snd
  range3.map (fun j => (col.drop (3 * j)).take 3)

/-- pairs_exclude_diagonal from utils.py: ordered pairs from the square of a
list, excluding equal pairs. -/
def pairs_exclude_diagonal [DecidableEq α] (it : List α) : List (α × α) :=
  (listProd it it).filter (fun p => p.1 ≠ p.2)

/-- iter_number_pairs from utils.py: for i in range(9), for j in
range(i+1, 9), yield (i, j).  Note the source draws both components from
range(9) = 0..8. -/
def iter_number_pairs : List (ℕ × ℕ) :=
  (List.range 9).flatMap (fun i => (List.range' (i + 1) (8 - i)).map (fun j => (i, j)))

/-- all_empty from utils.py: every mark set stored in the dictionary is
empty.  The dictionaries built by the move algorithms only ever hold grid
coordinates as keys, so we check the 81 grid cells. -/
def all_empty (nm : NewMarks) : Bool :=
  allCoords.all (fun c => nm c = ∅)

/-- itertools.compress: select elements of a list by a boolean mask. -/
def compress (xs : List α) (mask : List Bool) : List α :=
  ((xs.zip mask).filter (fun p => p.2)).map Prod.fst

/-- MarkedBoard.add_marks (boards.py): per-cell union of the new marks into
the board (set union is commutative; the new marks are written on the left
so that the untouched cells reduce cheaply). -/
def add_marks (mb : MarkedBoard) (new_marks : NewMarks) : MarkedBoard :=
  fun c => new_marks c ∪ mb c

/-- Coordinates touched by compute_marks_from_placed_number: the row, column
and box containing the placed cell (boards.py, the chained placements). -/
def placements (coords : Coord) : List Coord :=
  (iter_row_containing (fun _ => ()) coords).map Prod.fst ++
    (iter_column_containing (fun _ => ()) coords).map Prod.fst ++
      (iter_box_containing (fun _ => ()) coords).map Prod.fst

/-- MarkedBoard.compute_marks_from_placed_number (boards.py): the placed cell
gets all marks (saturation notates a solved cell), and every cell sharing its
row, column or box gets the placed number as a mark.  The result does not
depend on the board's current marks. -/
def compute_marks_from_placed_number (coords : Coord) (number : ℕ) : NewMarks :=
  fun c =>
    if c = coords then FULL_MARKS ∪ {number}
    else if c ∈ placements coords then {number}
    else ∅

/-- The all-empty marked board (MarkedBoard.__init__). -/
def emptyMarkedBoard : MarkedBoard := fun _ => ∅

/-- One step of the loop body of MarkedBoard.from_game_board (boards.py):
add the marks of a placed number, skip an empty cell. -/
def place_step (mb : MarkedBoard) (cell : Coord × Option ℕ) : MarkedBoard :=
  match cell.2 with
  | some number => add_marks mb (compute_marks_from_placed_number cell.1 number)
  | none => mb

/-- MarkedBoard.from_game_board (boards.py): fold over the game board in
row-major order, adding the marks from every placed number. -/
def from_game_board (gb : GameBoard) : MarkedBoard :=
  (iter_board gb).foldl place_step emptyMarkedBoard

/-- House types, as the HouseType enum in moves.py. -/
inductive HouseType
  | row
  | column
  | box
deriving DecidableEq, Repr

/-- House index: an int for a row or column, a pair for a box (the Python
house_idx field holds either, Union[Row, Col, BoxCoord]). -/
inductive HouseIdx
  | line (i : ℕ)
  | boxIdx (b : ℕ × ℕ)
deriving DecidableEq, Repr

/-- Move value objects: one constructor per concrete move class in moves.py,
carrying exactly the fields of its __init__.  NakedDouble and HiddenDouble
store their two numbers as a set, as the source converts the pair with
set(numbers). -/
inductive Move
  | finished
  | nakedSingle (coords : Coord) (number : ℕ)
  | hiddenSingle (coords : Coord) (house_type : HouseType) (number : ℕ)
  | intersectionTrickPointing (box : ℕ × ℕ) (house_type : HouseType) (house_idx : ℕ) (number : ℕ)
  | intersectionTrickClaiming (house_type : HouseType) (house_idx : ℕ) (box_idx : ℕ) (number : ℕ)
  | nakedDouble (house_type : HouseType) (house_idx : HouseIdx) (double_idxs : Coord × Coord) (numbers : Finset ℕ)
  | hiddenDouble (house_type : HouseType) (house_idx : HouseIdx) (double_idxs : Coord × Coord) (numbers : Finset ℕ)
deriving DecidableEq

/-- IntersectionTrickPointing._in_box (moves.py). -/
abbrev in_box (coords : Coord) (box : ℕ × ℕ) : Prop :=
  box.1 = coords.1 / 3 ∧ box.2 = coords.2 / 3

/-- Coordinates of a box, row-major (the keys produced by iter_box). -/
def boxCoords (box : ℕ × ℕ) : List Coord :=
  (iter_box (fun _ => ()) box).map Prod.fst

/-- Coordinates of the house named by a house type and house index, as used
by NakedDouble.compute_marks; an int index with BOX, or a pair index with
ROW/COLUMN, is a malformed combination on which the source would fail, and is
unreachable from search; we return the empty house there. -/
def houseTypeCoords (house_type : HouseType) (house_idx : HouseIdx) : List Coord :=
  match house_type, house_idx with
  | .row, .line i => (iter_row (fun _ => ()) i).map Prod.fst
  | .column, .line i => (iter_column (fun _ => ()) i).map Prod.fst
  | .box, .boxIdx b => boxCoords b
  | _, _ => []

/-- IntersectionTrickClaiming.box_coords (moves.py property); the BOX case
raises ValueError in the source and is unreachable from search. -/
def itc_box_coords (house_type : HouseType) (house_idx box_idx : ℕ) : ℕ × ℕ :=
  match house_type with
  | .row => (house_idx / 3, box_idx)
  | .column => (box_idx, house_idx / 3)
  | .box => (0, 0)

/-- compute_marks of each move class (moves.py), as a single dispatch on the
move constructor.  Finished licenses no marks; the singles reuse
compute_marks_from_placed_number; the intersection tricks mark their number
in the complementary part of the intersecting house/box, only at cells not
already marked; NakedDouble marks its two numbers in the rest of the house;
HiddenDouble marks all other digits in its two cells.  The BOX cases of the
intersection tricks raise ValueError in the source and are unreachable from
search; they are modelled as empty marks. -/
def Move.compute_marks (m : Move) (mb : MarkedBoard) : NewMarks :=
  match m with
  | .finished => fun _ => ∅
  | .nakedSingle coords number => compute_marks_from_placed_number coords number
  | .hiddenSingle coords _ number => compute_marks_from_placed_number coords number
  | .intersectionTrickPointing box house_type house_idx number =>
    match house_type with
    | .row => fun c =>
        if c.1 = 3 * box.1 + house_idx ∧ c.2 < 9 ∧ number ∉ mb c ∧ ¬ in_box c box then
          {number} else ∅
    | .column => fun c =>
        if c.2 = 3 * box.2 + house_idx ∧ c.1 < 9 ∧ number ∉ mb c ∧ ¬ in_box c box then
          {number} else ∅
    | .box => fun _ => ∅
  | .intersectionTrickClaiming house_type house_idx box_idx number =>
    match house_type with
    | .row => fun c =>
        if c ∈ boxCoords (itc_box_coords .row house_idx box_idx) ∧ ¬ c.1 = house_idx ∧
            number ∉ mb c then {number} else ∅
    | .column => fun c =>
        if c ∈ boxCoords (itc_box_coords .column house_idx box_idx) ∧ ¬ c.2 = house_idx ∧
            number ∉ mb c then {number} else ∅
    | .box => fun _ => ∅
  | .nakedDouble house_type house_idx double_idxs numbers => fun c =>
      if c ∈ houseTypeCoords house_type house_idx ∧ c ≠ double_idxs.1 ∧ c ≠ double_idxs.2 then
        numbers \ mb c else ∅
  | .hiddenDouble _ _ double_idxs numbers => fun c =>
      if c = double_idxs.1 then (FULL_MARKS \ mb double_idxs.1) \ numbers
      else if c = double_idxs.2 then (FULL_MARKS \ mb double_idxs.2) \ numbers
      else ∅

/-- Finished.search (moves.py): returns the Finished move exactly when every
cell's marks equal the full digit set; the already_found argument is
ignored by the source. -/
def Finished.search (mb : MarkedBoard) (_af : Finset Move) : Option Move :=
  if (iter_board mb).all (fun cell => cell.2 = FULL_MARKS) then some .finished else none

/-- NakedSingle.search (moves.py): scan all cells row-major; the first cell
missing exactly one mark yields that cell and its sole remaining digit.  The
source extracts the digit with next(iter(missing_marks)); as the missing set
is a subset of the digit set with exactly one element, that is the unique
digit of 1..9 lying in it.  The already_found argument is ignored by the
source. -/
def NakedSingle.search (mb : MarkedBoard) (_af : Finset Move) : Option Move :=
  (iter_board mb).findSome? (fun cell =>
    let missing_marks := FULL_MARKS \ cell.2
    if missing_marks.card = 1 then
      ((digitRange.filter (fun d => d ∈ missing_marks)).head?).map
        (fun number => Move.nakedSingle cell.1 number)
    else none)

/-- HiddenSingle._search_single_house_type (moves.py): for each house index
and digit (houses outer, digits inner), if exactly 8 of the 9 cells mark the
digit, the first unmarked cell is the hidden single.  The source extracts
that cell with is_marked.index(False); the first cell whose marks omit the
digit is the same cell. -/
def HiddenSingle.searchSingleHouseType (_mb : MarkedBoard) (house_type : HouseType)
    (house_idx_iter : List ι) (house_iter : ι → List (Coord × Marks)) : Option Move :=
  (listProd house_idx_iter digitRange).findSome? (fun p =>
    let house := house_iter p.1
    let is_marked := house.map (fun cell => decide (p.2 ∈ cell.2))
    if is_marked.count true = 8 then
      (house.find? (fun cell => decide (p.2 ∉ cell.2))).map
        (fun cell => Move.hiddenSingle cell.1 house_type p.2)
    else none)

/-- HiddenSingle.search (moves.py): rows, then columns, then boxes. -/
def HiddenSingle.search (mb : MarkedBoard) (_af : Finset Move) : Option Move :=
  match HiddenSingle.searchSingleHouseType mb .row range9 (iter_row mb) with
  | some hs => some hs
  | none =>
    match HiddenSingle.searchSingleHouseType mb .column range9 (iter_column mb) with
    | some hs => some hs
    | none =>
      HiddenSingle.searchSingleHouseType mb .box (listProd range3 range3) (iter_box mb)

/-- IntersectionTrickPointing._get_marks_for_rows_in_box (moves.py). -/
def IntersectionTrickPointing.getMarksForRowsInBox (mb : MarkedBoard) (box_coords : ℕ × ℕ) :
    List (List Marks) :=
  (range3.map (fun i => 3 * box_coords.1 + i)).map
    (fun i => (range3.map (fun j => 3 * box_coords.2 + j)).map (fun j => mb (i, j)))

/-- IntersectionTrickPointing._get_marks_for_columns_in_box (moves.py). -/
def IntersectionTrickPointing.getMarksForColumnsInBox (mb : MarkedBoard) (box_coords : ℕ × ℕ) :
    List (List Marks) :=
  (range3.map (fun j => 3 * box_coords.2 + j)).map
    (fun j => (range3.map (fun i => 3 * box_coords.1 + i)).map (fun i => mb (i, j)))

/-- IntersectionTrickPointing._search (moves.py): for each digit, if the
digit is possible in exactly one of the box's three intersections with the
given house type, build the move at that intersection; accept it only if it
adds at least one new mark and is not already found.  The BOX house type
raises ValueError in the source and is unreachable from search. -/
def IntersectionTrickPointing.searchBox (mb : MarkedBoard) (house_type : HouseType)
    (box_coords : ℕ × ℕ) (af : Finset Move) : Option Move :=
  let houses_in_box : List (List Marks) :=
    match house_type with
    | .row => IntersectionTrickPointing.getMarksForRowsInBox mb box_coords
    | .column => IntersectionTrickPointing.getMarksForColumnsInBox mb box_coords
    | .box => []
  digitRange.findSome? (fun number =>
    let possible_in_intersection :=
      houses_in_box.map (fun house => house.any (fun marks => decide (number ∉ marks)))
    if possible_in_intersection.count true = 1 then
      let intersection_house := possible_in_intersection.indexOf true
      let it := Move.intersectionTrickPointing box_coords house_type intersection_house number
      let new_marks := it.compute_marks mb
      if ¬ (all_empty new_marks = true) ∧ (af = ∅ ∨ it ∉ af) then some it else none
    else none)

/-- IntersectionTrickPointing.search (moves.py): boxes row-major, rows before
columns within a box. -/
def IntersectionTrickPointing.search (mb : MarkedBoard) (af : Finset Move) : Option Move :=
  (listProd range3 range3).findSome? (fun box_coords =>
    [HouseType.row, HouseType.column].findSome? (fun house_type =>
      IntersectionTrickPointing.searchBox mb house_type box_coords af))

/-- IntersectionTrickClaiming._search (moves.py): for each house index and
digit, if the digit is possible in exactly one of the house's three
box-aligned thirds, build the claiming move there; accept it only if it adds
at least one new mark and is not already found. -/
def IntersectionTrickClaiming.searchHouseType (mb : MarkedBoard) (house_type : HouseType)
    (af : Finset Move) : Option Move :=
  (listProd range9 digitRange).findSome? (fun p =>
    let possible_in_box_intersection : List Bool :=
      match house_type with
      | .row =>
        (iter_boxes_in_row mb p.1).map
          (fun box_intersection => box_intersection.any (fun marks => decide (p.2 ∉ marks)))
      | .column =>
        (iter_boxes_in_column mb p.1).map
          (fun box_intersection => box_intersection.any (fun marks => decide (p.2 ∉ marks)))
      | .box => []
    if possible_in_box_intersection.count true = 1 then
      let box_idx := possible_in_box_intersection.indexOf true
      let it := Move.intersectionTrickClaiming house_type p.1 box_idx p.2
      let new_marks := it.compute_marks mb
      if ¬ (all_empty new_marks = true) ∧ (af = ∅ ∨ it ∉ af) then some it else none
    else none)

/-- IntersectionTrickClaiming.search (moves.py): rows before columns. -/
def IntersectionTrickClaiming.search (mb : MarkedBoard) (af : Finset Move) : Option Move :=
  [HouseType.row, HouseType.column].findSome? (fun house_type =>
    IntersectionTrickClaiming.searchHouseType mb house_type af)

/-- NakedDouble._search_in_single_house_type (moves.py): traverse each house
twice via pairs_exclude_diagonal; a pair of distinct cells each missing
exactly two marks with identical mark sets is a naked double on the two
missing digits; accept it only if it adds at least one new mark and is not
already found. -/
def NakedDouble.searchInSingleHouseType (mb : MarkedBoard) (af : Finset Move)
    (house_type : HouseType) (house_iter : ι → List (Coord × Marks))
    (house_idx_iter : List ι) (mk_idx : ι → HouseIdx) : Option Move :=
  house_idx_iter.findSome? (fun house_idx =>
    (pairs_exclude_diagonal (house_iter house_idx)).findSome? (fun pr =>
      if pr.1.2.card = 7 ∧ pr.2.2.card = 7 ∧ pr.1.2 = pr.2.2 then
        let numbers := FULL_MARKS \ pr.1.2
        let nd := Move.nakedDouble house_type (mk_idx house_idx) (pr.1.1, pr.2.1) numbers
        let new_marks := nd.compute_marks mb
        if ¬ (all_empty new_marks = true) ∧ (af = ∅ ∨ nd ∉ af) then some nd else none
      else none))

/-- NakedDouble.search (moves.py): rows, then columns, then boxes. -/
def NakedDouble.search (mb : MarkedBoard) (af : Finset Move) : Option Move :=
  match NakedDouble.searchInSingleHouseType mb af .row (iter_row mb) range9 .line with
  | some nd => some nd
  | none =>
    match NakedDouble.searchInSingleHouseType mb af .column (iter_column mb) range9 .line with
    | some nd => some nd
    | none =>
      NakedDouble.searchInSingleHouseType mb af .box (iter_box mb) (listProd range3 range3) .boxIdx

/-- HiddenDouble._search (moves.py): for each house index and each number
pair from iter_number_pairs, if both numbers are possible in exactly the same
two cells of the house, those two cells are a hidden double; accept it only
if it adds at least one new mark and is not already found.  The source's
tuple(compress(...)) always has exactly two elements when the counts are 2;
other shapes are unreachable. -/
def HiddenDouble.searchHouseType (mb : MarkedBoard) (af : Finset Move)
    (house_type : HouseType) (house_iter : ι → List (Coord × Marks))
    (house_idx_iter : List ι) (mk_idx : ι → HouseIdx) : Option Move :=
  (listProd house_idx_iter iter_number_pairs).findSome? (fun p =>
    let house := house_iter p.1
    let n1_possible := house.map (fun cell => decide (p.2.1 ∉ cell.2))
    let n2_possible := house.map (fun cell => decide (p.2.2 ∉ cell.2))
    if n1_possible.count true = 2 ∧ n2_possible.count true = 2 ∧ n1_possible = n2_possible then
      match compress (house.map Prod.fst) n1_possible with
      | [d1, d2] =>
        let hd := Move.hiddenDouble house_type (mk_idx p.1) (d1, d2) {p.2.1, p.2.2}
        let new_marks := hd.compute_marks mb
        if ¬ (all_empty new_marks = true) ∧ (af = ∅ ∨ hd ∉ af) then some hd else none
      | _ => none
    else none)

/-- HiddenDouble.search (moves.py): rows, then columns, then boxes. -/
def HiddenDouble.search (mb : MarkedBoard) (af : Finset Move) : Option Move :=
  match HiddenDouble.searchHouseType mb af .row (iter_row mb) range9 .line with
  | some hd => some hd
  | none =>
    match HiddenDouble.searchHouseType mb af .column (iter_column mb) range9 .line with
    | some hd => some hd
    | none =>
      HiddenDouble.searchHouseType mb af .box (iter_box mb) (listProd range3 range3) .boxIdx

/-- The seven move kinds (the concrete Move subclasses of moves.py). -/
inductive MoveKind
  | finished
  | nakedSingle
  | hiddenSingle
  | intersectionTrickPointing
  | intersectionTrickClaiming
  | nakedDouble
  | hiddenDouble
deriving DecidableEq, Repr

/-- Dispatch of the per-class search methods over the move kinds. -/
def MoveKind.search : MoveKind → MarkedBoard → Finset Move → Option Move
  | .finished, mb, af => Finished.search mb af
  | .nakedSingle, mb, af => NakedSingle.search mb af
  | .hiddenSingle, mb, af => HiddenSingle.search mb af
  | .intersectionTrickPointing, mb, af => IntersectionTrickPointing.search mb af
  | .intersectionTrickClaiming, mb, af => IntersectionTrickClaiming.search mb af
  | .nakedDouble, mb, af => NakedDouble.search mb af
  | .hiddenDouble, mb, af => HiddenDouble.search mb af

/-- The kind of a move value (the __class__ of the Python object). -/
def Move.kind : Move → MoveKind
  | .finished => .finished
  | .nakedSingle _ _ => .nakedSingle
  | .hiddenSingle _ _ _ => .hiddenSingle
  | .intersectionTrickPointing _ _ _ _ => .intersectionTrickPointing
  | .intersectionTrickClaiming _ _ _ _ => .intersectionTrickClaiming
  | .nakedDouble _ _ _ _ => .nakedDouble
  | .hiddenDouble _ _ _ _ => .hiddenDouble

/-- MOVES_ORDER (moves.py lines 742-750): the solver's priority list.  Note
HiddenSingle precedes NakedSingle, and HiddenDouble precedes NakedDouble. -/
def MOVES_ORDER : List MoveKind :=
  [.finished, .hiddenSingle, .nakedSingle, .intersectionTrickPointing,
    .intersectionTrickClaiming, .hiddenDouble, .nakedDouble]

/-- Solver.find_next_move (solver.py): try the kinds in MOVES_ORDER, return
the first non-none search result. -/
def find_next_move (mb : MarkedBoard) (found_moves : Finset Move) : Option Move :=
  MOVES_ORDER.findSome? (fun k => k.search mb found_moves)

/-- Solver + Solution state (solver.py).  The Solution object's fields
(moves, marks, is_full_solution) are inlined next to the Solver's own fields
(game_board, marked_board, found_moves, is_complete).  The two write-only
attributes the loop creates dynamically (solution.is_fully_solved and
solver.is_fully_solved) are never read by the source and are not modelled. -/
structure SolverState where
  game_board : GameBoard
  marked_board : MarkedBoard
  found_moves : Finset Move
  solution_moves : List Move
  solution_marks : List NewMarks
  is_full_solution : Bool
  is_complete : Bool

/-- Solver.__init__ (solver.py): deep-copy the game board, derive the marked
board, start with no found moves and an empty solution. -/
def initSolver (gb : GameBoard) : SolverState where
  game_board := gb
  marked_board := from_game_board gb
  found_moves := ∅
  solution_moves := []
  solution_marks := []
  is_full_solution := false
  is_complete := false

/-- One iteration of the body of Solver.solve's while loop (solver.py): on
None, complete without the solved flag; on Finished, append it, set the
solved flag and complete; otherwise apply the move's marks, record it and
stay running. -/
def solveStep (s : SolverState) : SolverState :=
  match find_next_move s.marked_board s.found_moves with
  | none => { s with is_complete := true }
  | some .finished =>
    { s with
      solution_moves := s.solution_moves ++ [Move.finished]
      is_full_solution := true
      is_complete := true }
  | some mv =>
    let marks := mv.compute_marks s.marked_board
    { s with
      marked_board := add_marks s.marked_board marks
      found_moves := insert mv s.found_moves
      solution_moves := s.solution_moves ++ [mv]
      solution_marks := s.solution_marks ++ [marks] }

/-- Solver.solve (solver.py): iterate the loop body while not complete.  The
while loop is modelled with explicit fuel; the termination theorem shows that
9×81 + 1 iterations always suffice. -/
def solveLoop : ℕ → SolverState → SolverState
  | 0, s => s
  | n + 1, s => if s.is_complete then s else solveLoop n (solveStep s)

/-- Field values appearing in a move's __dict__ (moves.py move attributes):
coordinate-like int pairs, house types, ints, pairs of coordinates, and
number sets. -/
inductive FieldVal
  | pair (p : ℕ × ℕ)
  | houseType (h : HouseType)
  | num (n : ℕ)
  | pairPair (p : (ℕ × ℕ) × (ℕ × ℕ))
  | natSet (s : Finset ℕ)
deriving DecidableEq

/-- Tagged record produced by MoveIOMixin.to_dict: the move's fields plus the
class name under the added key name. -/
structure MoveRecord where
  name : String
  fields : List (String × FieldVal)
deriving DecidableEq

/-- Class name of each move kind (the __class__.__name__ used by to_dict). -/
def MoveKind.className : MoveKind → String
  | .finished => "Finished"
  | .nakedSingle => "NakedSingle"
  | .hiddenSingle => "HiddenSingle"
  | .intersectionTrickPointing => "IntersectionTrickPointing"
  | .intersectionTrickClaiming => "IntersectionTrickClaiming"
  | .nakedDouble => "NakedDouble"
  | .hiddenDouble => "HiddenDouble"

/-- The house_idx attribute of the doubles is an int for a row/column house
and a pair for a box house; encode it accordingly. -/
def HouseIdx.toFieldVal : HouseIdx → FieldVal
  | .line i => .num i
  | .boxIdx b => .pair b

/-- MoveIOMixin.to_dict (moves.py): the move's __dict__ (fields in __init__
assignment order) together with the class name. -/
def Move.to_dict : Move → MoveRecord
  | .finished => ⟨"Finished", []⟩
  | .nakedSingle coords number =>
    ⟨"NakedSingle", [("coords", .pair coords), ("number", .num number)]⟩
  | .hiddenSingle coords house_type number =>
    ⟨"HiddenSingle",
      [("coords", .pair coords), ("house_type", .houseType house_type),
        ("number", .num number)]⟩
  | .intersectionTrickPointing box house_type house_idx number =>
    ⟨"IntersectionTrickPointing",
      [("box", .pair box), ("house_type", .houseType house_type),
        ("house_idx", .num house_idx), ("number", .num number)]⟩
  | .intersectionTrickClaiming house_type house_idx box_idx number =>
    ⟨"IntersectionTrickClaiming",
      [("house_type", .houseType house_type), ("house_idx", .num house_idx),
        ("box_idx", .num box_idx), ("number", .num number)]⟩
  | .nakedDouble house_type house_idx double_idxs numbers =>
    ⟨"NakedDouble",
      [("house_type", .houseType house_type), ("house_idx", house_idx.toFieldVal),
        ("double_idxs", .pairPair double_idxs), ("numbers", .natSet numbers)]⟩
  | .hiddenDouble house_type house_idx double_idxs numbers =>
    ⟨"HiddenDouble",
      [("house_type", .houseType house_type), ("house_idx", house_idx.toFieldVal),
        ("double_idxs", .pairPair double_idxs), ("numbers", .natSet numbers)]⟩

/-- MoveIOMixin.from_dict specialised at each class (moves.py): drop the name
key and rebuild the move from the remaining keyword fields; a record whose
fields do not fit the class's __init__ is an error (none).  The record's own
name tag is ignored, as in the source. -/
def MoveKind.from_dict : MoveKind → MoveRecord → Option Move
  | .finished, r =>
    match r.fields with
    | [] => some .finished
    | _ => none
  | .nakedSingle, r =>
    match r.fields with
    | [("coords", .pair coords), ("number", .num number)] =>
      some (.nakedSingle coords number)
    | _ => none
  | .hiddenSingle, r =>
    match r.fields with
    | [("coords", .pair coords), ("house_type", .houseType house_type),
        ("number", .num number)] =>
      some (.hiddenSingle coords house_type number)
    | _ => none
  | .intersectionTrickPointing, r =>
    match r.fields with
    | [("box", .pair box), ("house_type", .houseType house_type),
        ("house_idx", .num house_idx), ("number", .num number)] =>
      some (.intersectionTrickPointing box house_type house_idx number)
    | _ => none
  | .intersectionTrickClaiming, r =>
    match r.fields with
    | [("house_type", .houseType house_type), ("house_idx", .num house_idx),
        ("box_idx", .num box_idx), ("number", .num number)] =>
      some (.intersectionTrickClaiming house_type house_idx box_idx number)
    | _ => none
  | .nakedDouble, r =>
    match r.fields with
    | [("house_type", .houseType house_type), ("house_idx", .num i),
        ("double_idxs", .pairPair double_idxs), ("numbers", .natSet numbers)] =>
      some (.nakedDouble house_type (.line i) double_idxs numbers)
    | [("house_type", .houseType house_type), ("house_idx", .pair b),
        ("double_idxs", .pairPair double_idxs), ("numbers", .natSet numbers)] =>
      some (.nakedDouble house_type (.boxIdx b) double_idxs numbers)
    | _ => none
  | .hiddenDouble, r =>
    match r.fields with
    | [("house_type", .houseType house_type), ("house_idx", .num i),
        ("double_idxs", .pairPair double_idxs), ("numbers", .natSet numbers)] =>
      some (.hiddenDouble house_type (.line i) double_idxs numbers)
    | [("house_type", .houseType house_type), ("house_idx", .pair b),
        ("double_idxs", .pairPair double_idxs), ("numbers", .natSet numbers)] =>
      some (.hiddenDouble house_type (.boxIdx b) double_idxs numbers)
    | _ => none

/-- MOVES_DICT (moves.py lines 752-760): the decode registry keyed by class
name.  The last key is misspelled HidenDouble in the source; it is
transcribed here exactly as written. -/
def MOVES_DICT : List (String × MoveKind) :=
  [("Finished", .finished),
    ("NakedSingle", .nakedSingle),
    ("HiddenSingle", .hiddenSingle),
    ("IntersectionTrickPointing", .intersectionTrickPointing),
    ("IntersectionTrickClaiming", .intersectionTrickClaiming),
    ("NakedDouble", .nakedDouble),
    ("HidenDouble", .hiddenDouble)]

/-- One record's decode step inside Solution.from_json (solver.py):
MOVES_DICT[record name].from_dict(record); a name missing from MOVES_DICT is
a KeyError (none). -/
def decode_move (r : MoveRecord) : Option Move :=
  (MOVES_DICT.lookup r.name).bind (fun k => k.from_dict r)

/-- Priority order as written in the specification (§4.2): NakedSingle before
HiddenSingle.  This definition follows the spec's words, for comparison with
MOVES_ORDER, which is transcribed from the source. -/
def SPEC_CLAIMED_MOVES_ORDER : List MoveKind :=
  [.finished, .nakedSingle, .hiddenSingle, .intersectionTrickPointing,
    .intersectionTrickClaiming, .hiddenDouble, .nakedDouble]

/-- find_next_move as the specification describes it, over the spec's claimed
priority order. -/
def find_next_move_claimed (mb : MarkedBoard) (found_moves : Finset Move) : Option Move :=
  SPEC_CLAIMED_MOVES_ORDER.findSome? (fun k => k.search mb found_moves)

/-- Game board with no givens. -/
def emptyGameBoard : GameBoard := fun _ => none

/-- Game board with row 0 filled at columns 1..8 with digits 2..9 (the
specification's scenario 1). -/
def givensRow0 : GameBoard :=
  fun c => if c.1 = 0 ∧ 1 ≤ c.2 ∧ c.2 ≤ 8 then some (c.2 + 1) else none

/-- A valid completed sudoku grid (the standard shifted pattern). -/
def solvedGrid : GameBoard :=
  fun c => if c.1 < 9 ∧ c.2 < 9 then some ((c.1 * 3 + c.1 / 3 + c.2) % 9 + 1) else none

/-- The completed grid with cell (0,0) removed: one deduction away from
solved. -/
def almostSolvedBoard : GameBoard :=
  fun c => if c = ((0, 0) : Coord) then none else solvedGrid c

/-- Marked board on which digits 8 and 9 form a hidden double in row 0 at
cells (0,0) and (0,1): both digits are marked everywhere else in the row and
nowhere in those two cells, and no other digit is constrained. -/
def doubleNinesBoard : MarkedBoard :=
  fun c => if c.1 = 0 ∧ 2 ≤ c.2 ∧ c.2 ≤ 8 then ({8, 9} : Finset ℕ) else ∅

/-- The saturated marked board: every cell holds all nine marks. -/
def saturatedBoard : MarkedBoard := fun _ => FULL_MARKS

/-- The 81 grid cells as a finite set, for counting marks. -/
def gridCells : Finset Coord := Finset.range 9 ×ˢ Finset.range 9

/-- Total number of marks on the grid, counting only the nine legal digits
per cell; this is the termination measure, bounded by 9×81 = 729. -/
def total_marks (mb : MarkedBoard) : ℕ :=
  ∑ c ∈ gridCells, ((mb c) ∩ FULL_MARKS).card

/-- A new-marks dictionary licenses at least one mark that is a legal digit,
at a grid cell, and not already on the board. -/
def adds_new_mark (mb : MarkedBoard) (nm : NewMarks) : Prop :=
  ∃ c, (c.1 < 9 ∧ c.2 < 9) ∧ ∃ n, n ∈ FULL_MARKS ∧ n ∈ nm c ∧ n ∉ mb c

set_option maxRecDepth 100000

set_option maxHeartbeats 12000000

lemma mem_listProd {xs : List α} {ys : List β} {p : α × β} :
    p ∈ listProd xs ys ↔ p.1 ∈ xs ∧ p.2 ∈ ys := by
  cases p with
  | mk a b =>
    simp only [listProd, List.mem_flatMap, List.mem_map, Prod.mk.injEq]
    constructor
    · rintro ⟨x, hx, y, hy, rfl, rfl⟩
      exact ⟨hx, hy⟩
    · rintro ⟨ha, hb⟩
      exact ⟨a, ha, b, hb, rfl, rfl⟩

lemma mem_allCoords {c : Coord} : c ∈ allCoords ↔ c.1 < 9 ∧ c.2 < 9 := by
  simp [allCoords, mem_listProd, range9, List.mem_range]

lemma mem_FULL_MARKS {n : ℕ} : n ∈ FULL_MARKS ↔ 1 ≤ n ∧ n ≤ 9 := by
  simp only [FULL_MARKS, Finset.mem_insert, Finset.mem_singleton]
  omega

lemma mem_digitRange {n : ℕ} : n ∈ digitRange ↔ 1 ≤ n ∧ n ≤ 9 := by
  simp only [digitRange, List.mem_range']
  constructor
  · rintro ⟨i, hi, rfl⟩
    omega
  · rintro ⟨h1, h9⟩
    exact ⟨n - 1, by omega, by omega⟩

lemma all_empty_eq_false {nm : NewMarks} :
    all_empty nm = false ↔ ∃ c, (c.1 < 9 ∧ c.2 < 9) ∧ nm c ≠ ∅ := by
  simp only [all_empty, List.all_eq_false, decide_eq_true_eq]
  constructor
  · rintro ⟨c, hc, hne⟩
    exact ⟨c, mem_allCoords.1 hc, hne⟩
  · rintro ⟨c, hc, hne⟩
    exact ⟨c, mem_allCoords.2 hc, hne⟩

lemma finished_search_eq_some {mb : MarkedBoard} {af : Finset Move} {m : Move}
    (h : Finished.search mb af = some m) :
    m = .finished ∧ ∀ c : Coord, c.1 < 9 → c.2 < 9 → mb c = FULL_MARKS := by
  unfold Finished.search at h
  split at h
  · rename_i hall
    refine ⟨(Option.some.inj h).symm, fun c h1 h2 => ?_⟩
    have hc : (c, mb c) ∈ iter_board mb := by
      simp only [iter_board, List.mem_map]
      exact ⟨c, mem_allCoords.2 ⟨h1, h2⟩, rfl⟩
    have := List.all_eq_true.1 hall _ hc
    exact of_decide_eq_true this
  · exact absurd h (by simp)

lemma nakedSingle_search_eq_some {mb : MarkedBoard} {af : Finset Move} {m : Move}
    (h : NakedSingle.search mb af = some m) :
    ∃ cs n, m = .nakedSingle cs n ∧ (cs.1 < 9 ∧ cs.2 < 9) ∧
      (FULL_MARKS \ mb cs).card = 1 ∧ n ∈ FULL_MARKS \ mb cs := by
  obtain ⟨cell, hmem, heq⟩ := List.exists_of_findSome?_eq_some h
  simp only [iter_board, List.mem_map] at hmem
  obtain ⟨c, hc, rfl⟩ := hmem
  dsimp only at heq
  split at heq
  · rename_i hcard
    obtain ⟨n, hn, rfl⟩ := Option.map_eq_some'.1 heq
    have hfiltmem : n ∈ digitRange.filter (fun d => decide (d ∈ FULL_MARKS \ mb c)) :=
      List.mem_of_mem_head? (by simp only [Option.mem_def, hn])
    have hnmem : n ∈ FULL_MARKS \ mb c := by
      have := List.mem_filter.1 hfiltmem
      exact of_decide_eq_true this.2
    exact ⟨c, n, rfl, mem_allCoords.1 hc, hcard, hnmem⟩
  · exact absurd heq (by simp)

lemma iter_row_spec {mb : MarkedBoard} {i : ℕ} (hi : i < 9) :
    ∀ p ∈ iter_row mb i, p.2 = mb p.1 ∧ p.1.1 < 9 ∧ p.1.2 < 9 := by
  intro p hp
  simp only [iter_row, List.mem_map, range9, List.mem_range] at hp
  obtain ⟨j, hj, rfl⟩ := hp
  exact ⟨rfl, hi, hj⟩

lemma iter_column_spec {mb : MarkedBoard} {i : ℕ} (hi : i < 9) :
    ∀ p ∈ iter_column mb i, p.2 = mb p.1 ∧ p.1.1 < 9 ∧ p.1.2 < 9 := by
  intro p hp
  simp only [iter_column, List.mem_map, range9, List.mem_range] at hp
  obtain ⟨j, hj, rfl⟩ := hp
  exact ⟨rfl, hj, hi⟩

lemma iter_box_spec {mb : MarkedBoard} {b : ℕ × ℕ} (h1 : b.1 < 3) (h2 : b.2 < 3) :
    ∀ p ∈ iter_box mb b, p.2 = mb p.1 ∧ p.1.1 < 9 ∧ p.1.2 < 9 := by
  intro p hp
  simp only [iter_box, List.mem_map] at hp
  obtain ⟨c, hc, rfl⟩ := hp
  rw [mem_listProd] at hc
  obtain ⟨hc1, hc2⟩ := hc
  simp only [range3, List.mem_map, List.mem_range] at hc1 hc2
  obtain ⟨di, hdi, hdi'⟩ := hc1
  obtain ⟨dj, hdj, hdj'⟩ := hc2
  refine ⟨rfl, ?_, ?_⟩
  · show c.1 < 9
    omega
  · show c.2 < 9
    omega

lemma hiddenSingle_sht_eq_some {mb : MarkedBoard} {ht : HouseType} {idxs : List ι}
    {house_iter : ι → List (Coord × Marks)} {m : Move}
    (hiter : ∀ i ∈ idxs, ∀ p ∈ house_iter i, p.2 = mb p.1 ∧ p.1.1 < 9 ∧ p.1.2 < 9)
    (h : HiddenSingle.searchSingleHouseType mb ht idxs house_iter = some m) :
    ∃ cs n, m = .hiddenSingle cs ht n ∧ (cs.1 < 9 ∧ cs.2 < 9) ∧
      1 ≤ n ∧ n ≤ 9 ∧ n ∉ mb cs := by
  obtain ⟨p, hpmem, heq⟩ := List.exists_of_findSome?_eq_some h
  rw [mem_listProd] at hpmem
  dsimp only at heq
  split at heq
  · obtain ⟨cell, hfind, rfl⟩ := Option.map_eq_some'.1 heq
    have hcellmem := List.mem_of_find?_eq_some hfind
    have hcellpred := List.find?_some hfind
    have hnot : p.2 ∉ cell.2 := of_decide_eq_true hcellpred
    obtain ⟨hval, hg1, hg2⟩ := hiter p.1 hpmem.1 cell hcellmem
    have hrange := mem_digitRange.1 hpmem.2
    exact ⟨cell.1, p.2, rfl, ⟨hg1, hg2⟩, hrange.1, hrange.2, hval ▸ hnot⟩
  · exact absurd heq (by simp)

lemma hiddenSingle_search_eq_some {mb : MarkedBoard} {af : Finset Move} {m : Move}
    (h : HiddenSingle.search mb af = some m) :
    ∃ cs ht n, m = .hiddenSingle cs ht n ∧ (cs.1 < 9 ∧ cs.2 < 9) ∧
      1 ≤ n ∧ n ≤ 9 ∧ n ∉ mb cs := by
  unfold HiddenSingle.search at h
  have hrow : ∀ i ∈ range9, ∀ p ∈ iter_row mb i, p.2 = mb p.1 ∧ p.1.1 < 9 ∧ p.1.2 < 9 := by
    intro i hi
    exact iter_row_spec (by simpa [range9, List.mem_range] using hi)
  have hcol : ∀ i ∈ range9, ∀ p ∈ iter_column mb i, p.2 = mb p.1 ∧ p.1.1 < 9 ∧ p.1.2 < 9 := by
    intro i hi
    exact iter_column_spec (by simpa [range9, List.mem_range] using hi)
  have hbox : ∀ b ∈ listProd range3 range3, ∀ p ∈ iter_box mb b,
      p.2 = mb p.1 ∧ p.1.1 < 9 ∧ p.1.2 < 9 := by
    intro b hb
    rw [mem_listProd] at hb
    simp only [range3, List.mem_range] at hb
    exact iter_box_spec hb.1 hb.2
  rcases h1 : HiddenSingle.searchSingleHouseType mb .row range9 (iter_row mb) with _ | m1
  · rw [h1] at h
    rcases h2 : HiddenSingle.searchSingleHouseType mb .column range9 (iter_column mb) with _ | m2
    · rw [h2] at h
      simp only at h
      obtain ⟨cs, n, rfl, hg, h1n, h9n, hnm⟩ := hiddenSingle_sht_eq_some hbox h
      exact ⟨cs, .box, n, rfl, hg, h1n, h9n, hnm⟩
    · rw [h2] at h
      simp only [Option.some.injEq] at h
      obtain ⟨cs, n, hm, hg, h1n, h9n, hnm⟩ := hiddenSingle_sht_eq_some hcol h2
      exact ⟨cs, .column, n, h ▸ hm, hg, h1n, h9n, hnm⟩
  · rw [h1] at h
    simp only [Option.some.injEq] at h
    obtain ⟨cs, n, hm, hg, h1n, h9n, hnm⟩ := hiddenSingle_sht_eq_some hrow h1
    exact ⟨cs, .row, n, h ▸ hm, hg, h1n, h9n, hnm⟩

lemma itp_searchBox_eq_some {mb : MarkedBoard} {ht : HouseType} {bc : ℕ × ℕ}
    {af : Finset Move} {m : Move}
    (h : IntersectionTrickPointing.searchBox mb ht bc af = some m) :
    ∃ hi n, m = .intersectionTrickPointing bc ht hi n ∧ 1 ≤ n ∧ n ≤ 9 ∧
      all_empty (m.compute_marks mb) = false := by
  obtain ⟨number, hnmem, heq⟩ := List.exists_of_findSome?_eq_some h
  have hrange := mem_digitRange.1 hnmem
  dsimp only at heq
  split at heq
  · split at heq
    · rename_i hcond
      obtain ⟨hne, _⟩ := hcond
      cases heq
      exact ⟨_, number, rfl, hrange.1, hrange.2, Bool.not_eq_true _ ▸ hne⟩
    · exact absurd heq (by simp)
  · exact absurd heq (by simp)

lemma itp_compute_adds {mb : MarkedBoard} {bc : ℕ × ℕ} {ht : HouseType} {hi n : ℕ}
    (h1 : 1 ≤ n) (h9 : n ≤ 9)
    (hne : all_empty ((Move.intersectionTrickPointing bc ht hi n).compute_marks mb) = false) :
    adds_new_mark mb ((Move.intersectionTrickPointing bc ht hi n).compute_marks mb) := by
  obtain ⟨c, hg, hcne⟩ := all_empty_eq_false.1 hne
  refine ⟨c, hg, n, mem_FULL_MARKS.2 ⟨h1, h9⟩, ?_⟩
  cases ht with
  | row =>
    simp only [Move.compute_marks] at hcne ⊢
    by_cases hcond : c.1 = 3 * bc.1 + hi ∧ c.2 < 9 ∧ n ∉ mb c ∧ ¬ in_box c bc
    · simp only [if_pos hcond]
      exact ⟨Finset.mem_singleton_self n, hcond.2.2.1⟩
    · exact absurd (if_neg hcond) hcne
  | column =>
    simp only [Move.compute_marks] at hcne ⊢
    by_cases hcond : c.2 = 3 * bc.2 + hi ∧ c.1 < 9 ∧ n ∉ mb c ∧ ¬ in_box c bc
    · simp only [if_pos hcond]
      exact ⟨Finset.mem_singleton_self n, hcond.2.2.1⟩
    · exact absurd (if_neg hcond) hcne
  | box =>
    simp only [Move.compute_marks] at hcne
    exact absurd rfl hcne

lemma itp_search_adds {mb : MarkedBoard} {af : Finset Move} {m : Move}
    (h : IntersectionTrickPointing.search mb af = some m) :
    m.kind = .intersectionTrickPointing ∧ adds_new_mark mb (m.compute_marks mb) := by
  obtain ⟨bc, _, hinner⟩ := List.exists_of_findSome?_eq_some h
  obtain ⟨ht, _, hbox⟩ := List.exists_of_findSome?_eq_some hinner
  obtain ⟨hi, n, rfl, h1, h9, hne⟩ := itp_searchBox_eq_some hbox
  exact ⟨rfl, itp_compute_adds h1 h9 hne⟩

lemma itc_searchHouseType_eq_some {mb : MarkedBoard} {ht : HouseType}
    {af : Finset Move} {m : Move}
    (h : IntersectionTrickClaiming.searchHouseType mb ht af = some m) :
    ∃ hi bi n, m = .intersectionTrickClaiming ht hi bi n ∧ 1 ≤ n ∧ n ≤ 9 ∧
      all_empty (m.compute_marks mb) = false := by
  obtain ⟨p, hpmem, heq⟩ := List.exists_of_findSome?_eq_some h
  rw [mem_listProd] at hpmem
  have hrange := mem_digitRange.1 hpmem.2
  dsimp only at heq
  split at heq
  · split at heq
    · rename_i hcond
      obtain ⟨hne, _⟩ := hcond
      cases heq
      exact ⟨p.1, _, p.2, rfl, hrange.1, hrange.2, Bool.not_eq_true _ ▸ hne⟩
    · exact absurd heq (by simp)
  · exact absurd heq (by simp)

lemma itc_compute_adds {mb : MarkedBoard} {ht : HouseType} {hi bi n : ℕ}
    (h1 : 1 ≤ n) (h9 : n ≤ 9)
    (hne : all_empty ((Move.intersectionTrickClaiming ht hi bi n).compute_marks mb) = false) :
    adds_new_mark mb ((Move.intersectionTrickClaiming ht hi bi n).compute_marks mb) := by
  obtain ⟨c, hg, hcne⟩ := all_empty_eq_false.1 hne
  refine ⟨c, hg, n, mem_FULL_MARKS.2 ⟨h1, h9⟩, ?_⟩
  cases ht with
  | row =>
    simp only [Move.compute_marks] at hcne ⊢
    by_cases hcond : c ∈ boxCoords (itc_box_coords .row hi bi) ∧ ¬ c.1 = hi ∧ n ∉ mb c
    · simp only [if_pos hcond]
      exact ⟨Finset.mem_singleton_self n, hcond.2.2⟩
    · exact absurd (if_neg hcond) hcne
  | column =>
    simp only [Move.compute_marks] at hcne ⊢
    by_cases hcond : c ∈ boxCoords (itc_box_coords .column hi bi) ∧ ¬ c.2 = hi ∧ n ∉ mb c
    · simp only [if_pos hcond]
      exact ⟨Finset.mem_singleton_self n, hcond.2.2⟩
    · exact absurd (if_neg hcond) hcne
  | box =>
    simp only [Move.compute_marks] at hcne
    exact absurd rfl hcne

lemma itc_search_adds {mb : MarkedBoard} {af : Finset Move} {m : Move}
    (h : IntersectionTrickClaiming.search mb af = some m) :
    m.kind = .intersectionTrickClaiming ∧ adds_new_mark mb (m.compute_marks mb) := by
  obtain ⟨ht, _, hht⟩ := List.exists_of_findSome?_eq_some h
  obtain ⟨hi, bi, n, rfl, h1, h9, hne⟩ := itc_searchHouseType_eq_some hht
  exact ⟨rfl, itc_compute_adds h1 h9 hne⟩

lemma nd_sht_eq_some {mb : MarkedBoard} {af : Finset Move} {ht : HouseType}
    {house_iter : ι → List (Coord × Marks)} {idxs : List ι} {mk_idx : ι → HouseIdx} {m : Move}
    (h : NakedDouble.searchInSingleHouseType mb af ht house_iter idxs mk_idx = some m) :
    ∃ hi d1 d2 ms, m = .nakedDouble ht hi (d1, d2) (FULL_MARKS \ ms) ∧
      all_empty (m.compute_marks mb) = false := by
  obtain ⟨house_idx, _, hinner⟩ := List.exists_of_findSome?_eq_some h
  obtain ⟨pr, _, heq⟩ := List.exists_of_findSome?_eq_some hinner
  dsimp only at heq
  split at heq
  · split at heq
    · rename_i hcond
      obtain ⟨hne, _⟩ := hcond
      cases heq
      exact ⟨mk_idx house_idx, pr.1.1, pr.2.1, pr.1.2, rfl, Bool.not_eq_true _ ▸ hne⟩
    · exact absurd heq (by simp)
  · exact absurd heq (by simp)

lemma nd_compute_adds {mb : MarkedBoard} {ht : HouseType} {hi : HouseIdx}
    {dd : Coord × Coord} {numbers : Finset ℕ} (hsub : numbers ⊆ FULL_MARKS)
    (hne : all_empty ((Move.nakedDouble ht hi dd numbers).compute_marks mb) = false) :
    adds_new_mark mb ((Move.nakedDouble ht hi dd numbers).compute_marks mb) := by
  obtain ⟨c, hg, hcne⟩ := all_empty_eq_false.1 hne
  simp only [Move.compute_marks] at hcne
  by_cases hcond : c ∈ houseTypeCoords ht hi ∧ c ≠ dd.1 ∧ c ≠ dd.2
  · rw [if_pos hcond] at hcne
    obtain ⟨x, hx⟩ := Finset.nonempty_iff_ne_empty.2 hcne
    have hxn := Finset.mem_sdiff.1 hx
    refine ⟨c, hg, x, hsub hxn.1, ?_, hxn.2⟩
    show x ∈ (if c ∈ houseTypeCoords ht hi ∧ c ≠ dd.1 ∧ c ≠ dd.2 then numbers \ mb c else ∅)
    rw [if_pos hcond]
    exact hx
  · exact absurd (if_neg hcond) hcne

lemma nd_search_adds {mb : MarkedBoard} {af : Finset Move} {m : Move}
    (h : NakedDouble.search mb af = some m) :
    m.kind = .nakedDouble ∧ adds_new_mark mb (m.compute_marks mb) := by
  unfold NakedDouble.search at h
  rcases h1 : NakedDouble.searchInSingleHouseType mb af .row (iter_row mb) range9 .line with _ | m1
  · rw [h1] at h
    rcases h2 : NakedDouble.searchInSingleHouseType mb af .column (iter_column mb) range9 .line with _ | m2
    · rw [h2] at h
      simp only at h
      obtain ⟨hi, d1, d2, ms, rfl, hne⟩ := nd_sht_eq_some h
      exact ⟨rfl, nd_compute_adds Finset.sdiff_subset hne⟩
    · rw [h2] at h
      simp only [Option.some.injEq] at h
      obtain ⟨hi, d1, d2, ms, hm, hne⟩ := nd_sht_eq_some h2
      subst h
      subst hm
      exact ⟨rfl, nd_compute_adds Finset.sdiff_subset hne⟩
  · rw [h1] at h
    simp only [Option.some.injEq] at h
    obtain ⟨hi, d1, d2, ms, hm, hne⟩ := nd_sht_eq_some h1
    subst h
    subst hm
    exact ⟨rfl, nd_compute_adds Finset.sdiff_subset hne⟩

lemma hd_sht_eq_some {mb : MarkedBoard} {af : Finset Move} {ht : HouseType}
    {house_iter : ι → List (Coord × Marks)} {idxs : List ι} {mk_idx : ι → HouseIdx} {m : Move}
    (h : HiddenDouble.searchHouseType mb af ht house_iter idxs mk_idx = some m) :
    ∃ hi d1 d2 ns, m = .hiddenDouble ht hi (d1, d2) ns ∧
      all_empty (m.compute_marks mb) = false := by
  obtain ⟨p, _, heq⟩ := List.exists_of_findSome?_eq_some h
  dsimp only at heq
  split at heq
  · split at heq
    · rename_i d1 d2 hcomp
      split at heq
      · rename_i hcond
        obtain ⟨hne, _⟩ := hcond
        cases heq
        exact ⟨mk_idx p.1, d1, d2, _, rfl, Bool.not_eq_true _ ▸ hne⟩
      · exact absurd heq (by simp)
    · exact absurd heq (by simp)
  · exact absurd heq (by simp)

lemma hd_compute_adds {mb : MarkedBoard} {ht : HouseType} {hi : HouseIdx}
    {dd : Coord × Coord} {numbers : Finset ℕ}
    (hne : all_empty ((Move.hiddenDouble ht hi dd numbers).compute_marks mb) = false) :
    adds_new_mark mb ((Move.hiddenDouble ht hi dd numbers).compute_marks mb) := by
  obtain ⟨c, hg, hcne⟩ := all_empty_eq_false.1 hne
  simp only [Move.compute_marks] at hcne
  by_cases hc1 : c = dd.1
  · rw [if_pos hc1] at hcne
    obtain ⟨x, hx⟩ := Finset.nonempty_iff_ne_empty.2 hcne
    have hx1 := Finset.mem_sdiff.1 hx
    have hx2 := Finset.mem_sdiff.1 hx1.1
    refine ⟨c, hg, x, hx2.1, ?_, hc1 ▸ hx2.2⟩
    show x ∈ (if c = dd.1 then (FULL_MARKS \ mb dd.1) \ numbers
      else if c = dd.2 then (FULL_MARKS \ mb dd.2) \ numbers else ∅)
    rw [if_pos hc1]
    exact hx
  · rw [if_neg hc1] at hcne
    by_cases hc2 : c = dd.2
    · rw [if_pos hc2] at hcne
      obtain ⟨x, hx⟩ := Finset.nonempty_iff_ne_empty.2 hcne
      have hx1 := Finset.mem_sdiff.1 hx
      have hx2 := Finset.mem_sdiff.1 hx1.1
      refine ⟨c, hg, x, hx2.1, ?_, hc2 ▸ hx2.2⟩
      show x ∈ (if c = dd.1 then (FULL_MARKS \ mb dd.1) \ numbers
        else if c = dd.2 then (FULL_MARKS \ mb dd.2) \ numbers else ∅)
      rw [if_neg hc1, if_pos hc2]
      exact hx
    · exact absurd (if_neg hc2) hcne

lemma hd_search_adds {mb : MarkedBoard} {af : Finset Move} {m : Move}
    (h : HiddenDouble.search mb af = some m) :
    m.kind = .hiddenDouble ∧ adds_new_mark mb (m.compute_marks mb) := by
  unfold HiddenDouble.search at h
  rcases h1 : HiddenDouble.searchHouseType mb af .row (iter_row mb) range9 .line with _ | m1
  · rw [h1] at h
    rcases h2 : HiddenDouble.searchHouseType mb af .column (iter_column mb) range9 .line with _ | m2
    · rw [h2] at h
      simp only at h
      obtain ⟨hi, d1, d2, ns, rfl, hne⟩ := hd_sht_eq_some h
      exact ⟨rfl, hd_compute_adds hne⟩
    · rw [h2] at h
      simp only [Option.some.injEq] at h
      obtain ⟨hi, d1, d2, ns, hm, hne⟩ := hd_sht_eq_some h2
      subst h
      subst hm
      exact ⟨rfl, hd_compute_adds hne⟩
  · rw [h1] at h
    simp only [Option.some.injEq] at h
    obtain ⟨hi, d1, d2, ns, hm, hne⟩ := hd_sht_eq_some h1
    subst h
    subst hm
    exact ⟨rfl, hd_compute_adds hne⟩

lemma ns_search_adds {mb : MarkedBoard} {af : Finset Move} {m : Move}
    (h : NakedSingle.search mb af = some m) :
    m.kind = .nakedSingle ∧ adds_new_mark mb (m.compute_marks mb) := by
  obtain ⟨cs, n, rfl, hg, hcard, hmem⟩ := nakedSingle_search_eq_some h
  have hn := Finset.mem_sdiff.1 hmem
  refine ⟨rfl, cs, hg, n, hn.1, ?_, hn.2⟩
  show n ∈ compute_marks_from_placed_number cs n cs
  unfold compute_marks_from_placed_number
  rw [if_pos rfl]
  exact Finset.mem_union_left _ hn.1

lemma hs_search_adds {mb : MarkedBoard} {af : Finset Move} {m : Move}
    (h : HiddenSingle.search mb af = some m) :
    m.kind = .hiddenSingle ∧ adds_new_mark mb (m.compute_marks mb) := by
  obtain ⟨cs, ht, n, rfl, hg, h1, h9, hnot⟩ := hiddenSingle_search_eq_some h
  have hnF : n ∈ FULL_MARKS := mem_FULL_MARKS.2 ⟨h1, h9⟩
  refine ⟨rfl, cs, hg, n, hnF, ?_, hnot⟩
  show n ∈ compute_marks_from_placed_number cs n cs
  unfold compute_marks_from_placed_number
  rw [if_pos rfl]
  exact Finset.mem_union_left _ hnF

lemma find_next_move_spec {mb : MarkedBoard} {af : Finset Move} {m : Move}
    (h : find_next_move mb af = some m) :
    (m = .finished ∧ ∀ c : Coord, c.1 < 9 → c.2 < 9 → mb c = FULL_MARKS) ∨
      (m.kind ≠ .finished ∧ adds_new_mark mb (m.compute_marks mb)) := by
  obtain ⟨k, _, hk⟩ := List.exists_of_findSome?_eq_some h
  cases k with
  | finished => exact Or.inl (@finished_search_eq_some mb af m hk)
  | nakedSingle =>
    obtain ⟨hkind, hadds⟩ := @ns_search_adds mb af m hk
    exact Or.inr ⟨by rw [hkind]; simp, hadds⟩
  | hiddenSingle =>
    obtain ⟨hkind, hadds⟩ := @hs_search_adds mb af m hk
    exact Or.inr ⟨by rw [hkind]; simp, hadds⟩
  | intersectionTrickPointing =>
    obtain ⟨hkind, hadds⟩ := @itp_search_adds mb af m hk
    exact Or.inr ⟨by rw [hkind]; simp, hadds⟩
  | intersectionTrickClaiming =>
    obtain ⟨hkind, hadds⟩ := @itc_search_adds mb af m hk
    exact Or.inr ⟨by rw [hkind]; simp, hadds⟩
  | nakedDouble =>
    obtain ⟨hkind, hadds⟩ := @nd_search_adds mb af m hk
    exact Or.inr ⟨by rw [hkind]; simp, hadds⟩
  | hiddenDouble =>
    obtain ⟨hkind, hadds⟩ := @hd_search_adds mb af m hk
    exact Or.inr ⟨by rw [hkind]; simp, hadds⟩

lemma mem_gridCells {c : Coord} : c ∈ gridCells ↔ c.1 < 9 ∧ c.2 < 9 := by
  cases c with
  | mk a b => simp [gridCells, Finset.mem_product]

lemma total_marks_le_729 (mb : MarkedBoard) : total_marks mb ≤ 729 := by
  have h : ∀ c ∈ gridCells, ((mb c) ∩ FULL_MARKS).card ≤ 9 := by
    intro c _
    calc ((mb c) ∩ FULL_MARKS).card ≤ FULL_MARKS.card :=
          Finset.card_le_card Finset.inter_subset_right
      _ = 9 := by decide
  calc total_marks mb ≤ gridCells.card • 9 := Finset.sum_le_card_nsmul _ _ _ h
    _ = 729 := by decide

lemma total_marks_lt_add {mb : MarkedBoard} {nm : NewMarks}
    (h : adds_new_mark mb nm) : total_marks mb < total_marks (add_marks mb nm) := by
  obtain ⟨c, hg, n, hnF, hnin, hnot⟩ := h
  refine Finset.sum_lt_sum (fun i _ => ?_) ⟨c, mem_gridCells.2 hg, ?_⟩
  · exact Finset.card_le_card
      (Finset.inter_subset_inter Finset.subset_union_right (Finset.Subset.refl _))
  · refine Finset.card_lt_card ((Finset.ssubset_iff_of_subset
      (Finset.inter_subset_inter Finset.subset_union_right (Finset.Subset.refl _))).2
      ⟨n, Finset.mem_inter.2 ⟨Finset.mem_union_left _ hnin, hnF⟩, fun hmem => ?_⟩)
    exact hnot (Finset.mem_inter.1 hmem).1

lemma solveLoop_of_complete {s : SolverState} (hc : s.is_complete = true) :
    ∀ n, solveLoop n s = s := by
  intro n
  cases n with
  | zero => rfl
  | succ k => simp [solveLoop, hc]

lemma solveStep_progress (s : SolverState) :
    (solveStep s).is_complete = true ∨
      total_marks s.marked_board < total_marks (solveStep s).marked_board := by
  unfold solveStep
  rcases hm : find_next_move s.marked_board s.found_moves with _ | mv
  · left
    rfl
  · rcases find_next_move_spec hm with ⟨rfl, _⟩ | ⟨hkind, hadds⟩
    · left
      rfl
    · cases mv with
      | finished => exact absurd rfl hkind
      | nakedSingle cs n => exact Or.inr (total_marks_lt_add hadds)
      | hiddenSingle cs ht n => exact Or.inr (total_marks_lt_add hadds)
      | intersectionTrickPointing b ht hi n => exact Or.inr (total_marks_lt_add hadds)
      | intersectionTrickClaiming ht hi bi n => exact Or.inr (total_marks_lt_add hadds)
      | nakedDouble ht hi dd ns => exact Or.inr (total_marks_lt_add hadds)
      | hiddenDouble ht hi dd ns => exact Or.inr (total_marks_lt_add hadds)

lemma solveLoop_complete_of_fuel :
    ∀ (fuel : ℕ) (s : SolverState), 730 ≤ total_marks s.marked_board + fuel →
      (solveLoop fuel s).is_complete = true := by
  intro fuel
  induction fuel with
  | zero =>
    intro s hs
    have := total_marks_le_729 s.marked_board
    omega
  | succ n ih =>
    intro s hs
    rw [solveLoop]
    by_cases hc : s.is_complete = true
    · simp [hc]
    · rw [if_neg (by simpa using hc)]
      rcases solveStep_progress s with hdone | hlt
      · rw [solveLoop_of_complete hdone]
        exact hdone
      · exact ih (solveStep s) (by omega)

lemma solveStep_mono (s : SolverState) (c : Coord) :
    s.marked_board c ⊆ (solveStep s).marked_board c := by
  unfold solveStep
  rcases hm : find_next_move s.marked_board s.found_moves with _ | mv
  · exact Finset.Subset.refl _
  · cases mv with
    | finished => exact Finset.Subset.refl _
    | nakedSingle cs n => exact Finset.subset_union_right
    | hiddenSingle cs ht n => exact Finset.subset_union_right
    | intersectionTrickPointing b ht hi n => exact Finset.subset_union_right
    | intersectionTrickClaiming ht hi bi n => exact Finset.subset_union_right
    | nakedDouble ht hi dd ns => exact Finset.subset_union_right
    | hiddenDouble ht hi dd ns => exact Finset.subset_union_right

lemma solveLoop_succ_eq (n : ℕ) (s : SolverState) :
    solveLoop (n + 1) s =
      (if (solveLoop n s).is_complete then solveLoop n s else solveStep (solveLoop n s)) := by
  induction n generalizing s with
  | zero =>
    show (if s.is_complete then s else solveLoop 0 (solveStep s)) =
      (if s.is_complete then s else solveStep s)
    rfl
  | succ k ih =>
    show (if s.is_complete then s else solveLoop (k + 1) (solveStep s)) = _
    by_cases hc : s.is_complete = true
    · rw [if_pos hc, solveLoop_of_complete hc (k + 1), if_pos hc]
    · rw [if_neg hc, ih (solveStep s)]
      have : solveLoop (k + 1) s = solveLoop k (solveStep s) := by
        rw [solveLoop, if_neg hc]
      rw [this]

lemma solveStep_game (s : SolverState) : (solveStep s).game_board = s.game_board := by
  unfold solveStep
  rcases hm : find_next_move s.marked_board s.found_moves with _ | mv
  · rfl
  · cases mv <;> rfl

lemma solveLoop_game (n : ℕ) (s : SolverState) :
    (solveLoop n s).game_board = s.game_board := by
  induction n generalizing s with
  | zero => rfl
  | succ k ih =>
    rw [solveLoop]
    by_cases hc : s.is_complete = true
    · rw [if_pos hc]
    · rw [if_neg hc, ih (solveStep s), solveStep_game]

lemma solveLoop_solved_saturated :
    ∀ (n : ℕ) (s : SolverState),
      (s.is_full_solution = true →
        s.is_complete = true ∧
          ∀ c : Coord, c.1 < 9 → c.2 < 9 → s.marked_board c = FULL_MARKS) →
      ((solveLoop n s).is_full_solution = true →
        (solveLoop n s).is_complete = true ∧
          ∀ c : Coord, c.1 < 9 → c.2 < 9 → (solveLoop n s).marked_board c = FULL_MARKS) := by
  intro n
  induction n with
  | zero => intro s hs; exact hs
  | succ k ih =>
    intro s hs
    rw [solveLoop]
    by_cases hc : s.is_complete = true
    · rw [if_pos hc]
      exact hs
    · rw [if_neg hc]
      refine ih (solveStep s) ?_
      unfold solveStep
      rcases hm : find_next_move s.marked_board s.found_moves with _ | mv
      · intro hflag
        exact absurd (hs hflag).1 hc
      · rcases find_next_move_spec hm with ⟨rfl, hsat⟩ | ⟨hkind, _⟩
        · intro _
          exact ⟨rfl, hsat⟩
        · cases mv with
          | finished => exact absurd rfl hkind
          | nakedSingle cs nn => exact fun hflag => absurd (hs hflag).1 hc
          | hiddenSingle cs ht nn => exact fun hflag => absurd (hs hflag).1 hc
          | intersectionTrickPointing b ht hi nn => exact fun hflag => absurd (hs hflag).1 hc
          | intersectionTrickClaiming ht hi bi nn => exact fun hflag => absurd (hs hflag).1 hc
          | nakedDouble ht hi dd ns => exact fun hflag => absurd (hs hflag).1 hc
          | hiddenDouble ht hi dd ns => exact fun hflag => absurd (hs hflag).1 hc

/-- C4: Solver.solve always terminates within 9×81 mark-adding steps: with
fuel 9×81+1 the loop is complete for every input game board, and every
iteration of the loop body either completes the solve or strictly increases
the total number of marks on the board (which is bounded by 9 per cell over
81 cells). -/
theorem spec_C4 :
    (∀ gb : GameBoard, (solveLoop (9 * 81 + 1) (initSolver gb)).is_complete = true) ∧
      (∀ s : SolverState, (solveStep s).is_complete = true ∨
        total_marks s.marked_board < total_marks (solveStep s).marked_board) := by
  constructor
  · intro gb
    exact solveLoop_complete_of_fuel (9 * 81 + 1) (initSolver gb)
      (by have := Nat.zero_le (total_marks (initSolver gb).marked_board); omega)
  · exact solveStep_progress

/-- C5: marks are monotone across the solve loop: for every input board,
every step index and every cell, the mark set after i iterations is a subset
of the mark set after i+1 iterations; no operation of the loop ever removes
a mark. -/
theorem spec_C5 (gb : GameBoard) (i : ℕ) (c : Coord) :
    (solveLoop i (initSolver gb)).marked_board c ⊆
      (solveLoop (i + 1) (initSolver gb)).marked_board c := by
  rw [solveLoop_succ_eq]
  by_cases hc : (solveLoop i (initSolver gb)).is_complete = true
  · rw [if_pos hc]
  · rw [if_neg hc]
    exact solveStep_mono _ c

/-- C6 (amended): for every move kind other than Finished, search never
returns a move whose compute_marks result is entirely empty.  (Finished
itself violates the unamended claim: its search can succeed while its
compute_marks is always empty.) -/
theorem spec_C6_amended (k : MoveKind) (hk : k ≠ .finished) (mb : MarkedBoard)
    (af : Finset Move) (m : Move) (h : k.search mb af = some m) :
    all_empty (m.compute_marks mb) = false := by
  have hadds : adds_new_mark mb (m.compute_marks mb) := by
    cases k with
    | finished => exact absurd rfl hk
    | nakedSingle => exact (@ns_search_adds mb af m h).2
    | hiddenSingle => exact (@hs_search_adds mb af m h).2
    | intersectionTrickPointing => exact (@itp_search_adds mb af m h).2
    | intersectionTrickClaiming => exact (@itc_search_adds mb af m h).2
    | nakedDouble => exact (@nd_search_adds mb af m h).2
    | hiddenDouble => exact (@hd_search_adds mb af m h).2
  obtain ⟨c, hg, n, _, hnin, _⟩ := hadds
  refine List.all_eq_false.2 ⟨c, mem_allCoords.2 hg, ?_⟩
  simp only [decide_eq_true_eq]
  intro hemp
  rw [hemp] at hnin
  exact absurd hnin (Finset.not_mem_empty n)

/-- C6 (counterexample): on the fully saturated board, Finished.search
returns the Finished move, whose compute_marks result is entirely empty —
so the claim's universal no-op rejection fails for the Finished kind. -/
theorem spec_C6_counterexample :
    MoveKind.finished.search saturatedBoard ∅ = some Move.finished ∧
      all_empty (Move.finished.compute_marks saturatedBoard) = true := by
  constructor
  · decide
  · decide


/-- C6 (witness for the amended claim): instantiated at the NakedSingle kind
on the marked board of the scenario-1 game board. -/
theorem spec_C6_witness :
    all_empty ((Move.nakedSingle (0, 0) 1).compute_marks (from_game_board givensRow0)) =
      false :=
  spec_C6_amended .nakedSingle (by decide) (from_game_board givensRow0) ∅
    (Move.nakedSingle (0, 0) 1) (by decide)

/-- C10: on a marked board whose marks are digits, a returned naked or hidden
single targets a cell whose marks are a proper subset of the digit set;
unioning in the move's computed marks saturates that cell, so the move adds a
new mark there; on any later board of the same solve (one extending the board
with the move applied) the same single is never returned again; and neither
search consults the already-found set. -/
theorem spec_C10 (mb : MarkedBoard) (af : Finset Move)
    (hwf : ∀ c ∈ allCoords, mb c ⊆ FULL_MARKS) :
    (∀ cs n, NakedSingle.search mb af = some (.nakedSingle cs n) →
      mb cs ⊂ FULL_MARKS ∧
      add_marks mb ((Move.nakedSingle cs n).compute_marks mb) cs = FULL_MARKS ∧
      (∃ d ∈ (Move.nakedSingle cs n).compute_marks mb cs, d ∉ mb cs) ∧
      (∀ mb' : MarkedBoard,
        (∀ c, add_marks mb ((Move.nakedSingle cs n).compute_marks mb) c ⊆ mb' c) →
        NakedSingle.search mb' af ≠ some (.nakedSingle cs n)) ∧
      (∀ af2 : Finset Move, NakedSingle.search mb af2 = NakedSingle.search mb af)) ∧
    (∀ cs ht n, HiddenSingle.search mb af = some (.hiddenSingle cs ht n) →
      mb cs ⊂ FULL_MARKS ∧
      add_marks mb ((Move.hiddenSingle cs ht n).compute_marks mb) cs = FULL_MARKS ∧
      (∃ d ∈ (Move.hiddenSingle cs ht n).compute_marks mb cs, d ∉ mb cs) ∧
      (∀ mb' : MarkedBoard,
        (∀ c, add_marks mb ((Move.hiddenSingle cs ht n).compute_marks mb) c ⊆ mb' c) →
        HiddenSingle.search mb' af ≠ some (.hiddenSingle cs ht n)) ∧
      (∀ af2 : Finset Move, HiddenSingle.search mb af2 = HiddenSingle.search mb af)) := by
  constructor
  · intro cs n h
    obtain ⟨cs', n', heqm, hg, hcard, hmem⟩ := @nakedSingle_search_eq_some mb af _ h
    injection heqm with hcs hnn
    subst hcs
    subst hnn
    have hsub : mb cs ⊆ FULL_MARKS := hwf cs (mem_allCoords.2 hg)
    have hn := Finset.mem_sdiff.1 hmem
    have hcompute : (Move.nakedSingle cs n).compute_marks mb cs = FULL_MARKS ∪ {n} := by
      show compute_marks_from_placed_number cs n cs = FULL_MARKS ∪ {n}
      unfold compute_marks_from_placed_number
      rw [if_pos rfl]
    have hsat : add_marks mb ((Move.nakedSingle cs n).compute_marks mb) cs = FULL_MARKS := by
      show (Move.nakedSingle cs n).compute_marks mb cs ∪ mb cs = FULL_MARKS
      rw [hcompute, Finset.union_eq_left.2 (Finset.singleton_subset_iff.2 hn.1),
        Finset.union_eq_left.2 hsub]
    refine ⟨?_, hsat, ⟨n, ?_, hn.2⟩, ?_, fun af2 => rfl⟩
    · exact (Finset.ssubset_iff_of_subset hsub).2 ⟨n, hn.1, hn.2⟩
    · rw [hcompute]
      exact Finset.mem_union_left _ hn.1
    · intro mb' hsup hcontra
      obtain ⟨cs2, n2, heq2, _, _, hmem2⟩ := @nakedSingle_search_eq_some mb' af _ hcontra
      injection heq2 with hcs2 hnn2
      subst hcs2
      subst hnn2
      have : n ∉ mb' cs := (Finset.mem_sdiff.1 hmem2).2
      exact this (hsup cs (hsat ▸ hn.1))
  · intro cs ht n h
    obtain ⟨cs', ht', n', heqm, hg, h1, h9, hnot⟩ := @hiddenSingle_search_eq_some mb af _ h
    injection heqm with hcs hht hnn
    subst hcs
    subst hht
    subst hnn
    have hsub : mb cs ⊆ FULL_MARKS := hwf cs (mem_allCoords.2 hg)
    have hnF : n ∈ FULL_MARKS := mem_FULL_MARKS.2 ⟨h1, h9⟩
    have hcompute : (Move.hiddenSingle cs ht n).compute_marks mb cs = FULL_MARKS ∪ {n} := by
      show compute_marks_from_placed_number cs n cs = FULL_MARKS ∪ {n}
      unfold compute_marks_from_placed_number
      rw [if_pos rfl]
    have hsat : add_marks mb ((Move.hiddenSingle cs ht n).compute_marks mb) cs = FULL_MARKS := by
      show (Move.hiddenSingle cs ht n).compute_marks mb cs ∪ mb cs = FULL_MARKS
      rw [hcompute, Finset.union_eq_left.2 (Finset.singleton_subset_iff.2 hnF),
        Finset.union_eq_left.2 hsub]
    refine ⟨?_, hsat, ⟨n, ?_, hnot⟩, ?_, fun af2 => rfl⟩
    · exact (Finset.ssubset_iff_of_subset hsub).2 ⟨n, hnF, hnot⟩
    · rw [hcompute]
      exact Finset.mem_union_left _ hnF
    · intro mb' hsup hcontra
      obtain ⟨cs2, ht2, n2, heq2, _, _, _, hnot2⟩ := @hiddenSingle_search_eq_some mb' af _ hcontra
      injection heq2 with hcs2 hht2 hnn2
      subst hcs2
      subst hnn2
      exact hnot2 (hsup cs (hsat ▸ hnF))

/-- C10 (witness): on the scenario-1 board, the naked single at (0,0) with
digit 1 satisfies the proper-subset and saturation conclusions. -/
theorem spec_C10_witness :
    from_game_board givensRow0 (0, 0) ⊂ FULL_MARKS ∧
      add_marks (from_game_board givensRow0)
        ((Move.nakedSingle (0, 0) 1).compute_marks (from_game_board givensRow0)) (0, 0) =
        FULL_MARKS := by
  have h := (spec_C10 (from_game_board givensRow0) ∅ (by decide)).1 (0, 0) 1 (by decide)
  exact ⟨h.1, h.2.1⟩

/-- C1 (amended): find_next_move tries the move kinds in the priority order
Finished, HiddenSingle, NakedSingle, IntersectionTrickPointing,
IntersectionTrickClaiming, HiddenDouble, NakedDouble (the order of
MOVES_ORDER in the source, with HiddenSingle before NakedSingle), and returns
the first non-none search result. -/
theorem spec_C1_amended (mb : MarkedBoard) (af : Finset Move) :
    find_next_move mb af =
      [Finished.search mb af, HiddenSingle.search mb af, NakedSingle.search mb af,
        IntersectionTrickPointing.search mb af, IntersectionTrickClaiming.search mb af,
        HiddenDouble.search mb af, NakedDouble.search mb af].findSome? id := rfl

/-- C1 (counterexample): on the scenario-1 board both a naked single and a
hidden single exist; the solver returns the HiddenSingle move, while the
claimed priority order (NakedSingle before HiddenSingle) would return the
NakedSingle move, so the claimed order disagrees with the code. -/
theorem spec_C1_counterexample :
    find_next_move (from_game_board givensRow0) ∅ =
        some (.hiddenSingle (0, 0) .row 1) ∧
      find_next_move_claimed (from_game_board givensRow0) ∅ =
        some (.nakedSingle (0, 0) 1) ∧
      find_next_move (from_game_board givensRow0) ∅ ≠
        find_next_move_claimed (from_game_board givensRow0) ∅ := by
  refine ⟨by decide, by decide, by decide⟩

/-- C9: on the empty board every one of the seven move-kind searches returns
none, and the solve loop terminates in the Stuck state: complete, the
completion flag unset, and no move appended to the trace. -/
theorem spec_C9 :
    MOVES_ORDER.all (fun k => (k.search (from_game_board emptyGameBoard) ∅).isNone) = true ∧
      (solveLoop (9 * 81 + 1) (initSolver emptyGameBoard)).is_complete = true ∧
      (solveLoop (9 * 81 + 1) (initSolver emptyGameBoard)).is_full_solution = false ∧
      (solveLoop (9 * 81 + 1) (initSolver emptyGameBoard)).solution_moves = [] := by
  have hb : from_game_board emptyGameBoard = emptyMarkedBoard := rfl
  have hs : initSolver emptyGameBoard =
      ⟨emptyGameBoard, emptyMarkedBoard, ∅, [], [], false, false⟩ := by
    unfold initSolver
    rw [hb]
  rw [hb, hs]
  refine ⟨by decide, by decide, by decide, by decide⟩

/-- C2 (code evaluation at the failing input): on doubleNinesBoard, digits 8
and 9 are each possible in exactly the same two cells of row 0 and the hidden
double there would add new marks, yet HiddenDouble.search returns none,
because iter_number_pairs enumerates pairs from range(9) = 0..8 and never
considers digit 9. -/
theorem spec_C2_bug :
    HiddenDouble.search doubleNinesBoard ∅ = none ∧
      ((iter_row doubleNinesBoard 0).map (fun cell => decide ((8 : ℕ) ∉ cell.2))).count true = 2 ∧
      ((iter_row doubleNinesBoard 0).map (fun cell => decide ((9 : ℕ) ∉ cell.2))).count true = 2 ∧
      ((iter_row doubleNinesBoard 0).map (fun cell => decide ((8 : ℕ) ∉ cell.2))) =
        ((iter_row doubleNinesBoard 0).map (fun cell => decide ((9 : ℕ) ∉ cell.2))) ∧
      all_empty ((Move.hiddenDouble .row (.line 0) ((0, 0), (0, 1)) {8, 9}).compute_marks
        doubleNinesBoard) = false ∧
      iter_number_pairs.all (fun p => decide (p.1 < 9) && decide (p.2 < 9)) = true ∧
      ((8, 9) : ℕ × ℕ) ∉ iter_number_pairs := by
  refine ⟨by decide, by decide, by decide, by decide, by decide, by decide, by decide⟩

/-- Dict-level round trip: from_dict of the move's own class applied to its
to_dict record rebuilds the move, for every move value. -/
lemma from_dict_to_dict (m : Move) : m.kind.from_dict m.to_dict = some m := by
  cases m with
  | finished => rfl
  | nakedSingle coords number => rfl
  | hiddenSingle coords house_type number => rfl
  | intersectionTrickPointing box house_type house_idx number => rfl
  | intersectionTrickClaiming house_type house_idx box_idx number => rfl
  | nakedDouble house_type house_idx double_idxs numbers => cases house_idx <;> rfl
  | hiddenDouble house_type house_idx double_idxs numbers => cases house_idx <;> rfl

/-- C7 (code evaluation at the failing input): a HiddenDouble move encodes
with name HiddenDouble, its own from_dict decodes the record back to the
move, but the registry decode fails with a lookup error because MOVES_DICT's
key is misspelled HidenDouble. -/
theorem spec_C7_bug :
    (Move.hiddenDouble .row (.line 0) ((0, 0), (0, 2)) {1, 2}).to_dict.name =
        "HiddenDouble" ∧
      decode_move ((Move.hiddenDouble .row (.line 0) ((0, 0), (0, 2)) {1, 2}).to_dict) =
        none ∧
      MoveKind.hiddenDouble.from_dict
          ((Move.hiddenDouble .row (.line 0) ((0, 0), (0, 2)) {1, 2}).to_dict) =
        some (Move.hiddenDouble .row (.line 0) ((0, 0), (0, 2)) {1, 2}) := by
  refine ⟨rfl, by decide, by decide⟩

/-- C8 (code evaluation at the failing input): the legitimate kind name
HiddenDouble is missing from MOVES_DICT (lookup error), while the
non-kind-name HidenDouble is present and decodes without a lookup error —
both directions of the claimed equivalence fail. -/
theorem spec_C8_bug :
    MOVES_DICT.lookup "HiddenDouble" = none ∧
      "HiddenDouble" ∈ MOVES_ORDER.map MoveKind.className ∧
      MOVES_DICT.lookup "HidenDouble" = some MoveKind.hiddenDouble ∧
      "HidenDouble" ∉ MOVES_ORDER.map MoveKind.className := by
  refine ⟨by decide, by decide, by decide, by decide⟩

lemma place_step_mono (mb : MarkedBoard) (cell : Coord × Option ℕ) (c : Coord) :
    mb c ⊆ place_step mb cell c := by
  unfold place_step
  cases cell.2 with
  | none => exact Finset.Subset.refl _
  | some n => exact Finset.subset_union_right

lemma foldl_place_mono (l : List (Coord × Option ℕ)) (mb : MarkedBoard) (c : Coord) :
    mb c ⊆ (l.foldl place_step mb) c := by
  induction l generalizing mb with
  | nil => exact Finset.Subset.refl _
  | cons hd tl ih =>
    exact Finset.Subset.trans (place_step_mono mb hd c) (ih (place_step mb hd))

lemma compute_marks_from_placed_number_le (c0 : Coord) (n : ℕ)
    (h1 : 1 ≤ n) (h9 : n ≤ 9) (c : Coord) :
    compute_marks_from_placed_number c0 n c ⊆ FULL_MARKS := by
  have hnF : n ∈ FULL_MARKS := mem_FULL_MARKS.2 ⟨h1, h9⟩
  unfold compute_marks_from_placed_number
  by_cases hc : c = c0
  · rw [if_pos hc]
    exact Finset.union_subset (Finset.Subset.refl _) (Finset.singleton_subset_iff.2 hnF)
  · rw [if_neg hc]
    by_cases hp : c ∈ placements c0
    · rw [if_pos hp]
      exact Finset.singleton_subset_iff.2 hnF
    · rw [if_neg hp]
      exact Finset.empty_subset _

lemma place_step_le (mb : MarkedBoard) (cell : Coord × Option ℕ)
    (hmb : ∀ c, mb c ⊆ FULL_MARKS)
    (hcell : ∀ n, cell.2 = some n → 1 ≤ n ∧ n ≤ 9) (c : Coord) :
    place_step mb cell c ⊆ FULL_MARKS := by
  unfold place_step
  rcases h2 : cell.2 with _ | n
  · exact hmb c
  · obtain ⟨h1, h9⟩ := hcell n h2
    exact Finset.union_subset
      (compute_marks_from_placed_number_le cell.1 n h1 h9 c) (hmb c)

lemma foldl_place_le (l : List (Coord × Option ℕ)) (mb : MarkedBoard)
    (hmb : ∀ c, mb c ⊆ FULL_MARKS)
    (hl : ∀ cell ∈ l, ∀ n, cell.2 = some n → 1 ≤ n ∧ n ≤ 9) (c : Coord) :
    (l.foldl place_step mb) c ⊆ FULL_MARKS := by
  induction l generalizing mb with
  | nil => exact hmb c
  | cons hd tl ih =>
    exact ih (place_step mb hd)
      (fun c2 => place_step_le mb hd hmb (hl hd (List.mem_cons_self hd tl)) c2)
      (fun cell hc => hl cell (List.mem_cons_of_mem hd hc))

lemma from_game_board_le (gb : GameBoard)
    (hdig : ∀ c n, gb c = some n → 1 ≤ n ∧ n ≤ 9) (c : Coord) :
    from_game_board gb c ⊆ FULL_MARKS := by
  unfold from_game_board
  refine foldl_place_le _ _ (fun _ => Finset.empty_subset _) ?_ c
  intro cell hcell n hn
  simp only [iter_board, List.mem_map] at hcell
  obtain ⟨c2, _, rfl⟩ := hcell
  exact hdig c2 n hn

lemma from_game_board_saturated (gb : GameBoard)
    (hdig : ∀ c n, gb c = some n → 1 ≤ n ∧ n ≤ 9) (c : Coord) (n : ℕ)
    (hg1 : c.1 < 9) (hg2 : c.2 < 9) (hc : gb c = some n) :
    from_game_board gb c = FULL_MARKS := by
  refine Finset.Subset.antisymm (from_game_board_le gb hdig c) ?_
  have hmem : (c, gb c) ∈ iter_board gb := by
    simp only [iter_board, List.mem_map]
    exact ⟨c, mem_allCoords.2 ⟨hg1, hg2⟩, rfl⟩
  obtain ⟨l1, l2, hsplit⟩ := List.append_of_mem hmem
  unfold from_game_board
  rw [hsplit, List.foldl_append]
  refine Finset.Subset.trans ?_ (foldl_place_mono l2 _ c)
  show FULL_MARKS ⊆ place_step (l1.foldl place_step emptyMarkedBoard) (c, gb c) c
  rw [hc]
  show FULL_MARKS ⊆
    compute_marks_from_placed_number c n c ∪ (l1.foldl place_step emptyMarkedBoard) c
  refine Finset.Subset.trans ?_ Finset.subset_union_left
  unfold compute_marks_from_placed_number
  rw [if_pos rfl]
  exact Finset.subset_union_left

lemma almostSolvedBoard_digits :
    ∀ c n, almostSolvedBoard c = some n → 1 ≤ n ∧ n ≤ 9 := by
  intro c n h
  unfold almostSolvedBoard solvedGrid at h
  split at h
  · exact absurd h (by simp)
  · split at h
    · have := Option.some.inj h
      omega
    · exact absurd h (by simp)

lemma almostSolvedBoard_filled (c : Coord) (hg1 : c.1 < 9) (hg2 : c.2 < 9)
    (hne : c ≠ ((0, 0) : Coord)) : ∃ n, almostSolvedBoard c = some n := by
  refine ⟨(c.1 * 3 + c.1 / 3 + c.2) % 9 + 1, ?_⟩
  unfold almostSolvedBoard solvedGrid
  rw [if_neg hne, if_pos ⟨hg1, hg2⟩]

lemma solveLoop_succ_step {n : ℕ} {s : SolverState} (hc : s.is_complete = false) :
    solveLoop (n + 1) s = solveLoop n (solveStep s) := by
  rw [solveLoop, hc, if_neg Bool.false_ne_true]

lemma solveStep_hiddenSingle_fields {s : SolverState} {cs : Coord} {ht : HouseType} {n : ℕ}
    (h : find_next_move s.marked_board s.found_moves = some (.hiddenSingle cs ht n)) :
    (solveStep s).marked_board =
        add_marks s.marked_board ((Move.hiddenSingle cs ht n).compute_marks s.marked_board) ∧
      (solveStep s).found_moves = insert (Move.hiddenSingle cs ht n) s.found_moves ∧
      (solveStep s).is_complete = s.is_complete := by
  unfold solveStep
  rw [h]
  exact ⟨rfl, rfl, rfl⟩

lemma solveStep_finished_fields {s : SolverState}
    (h : find_next_move s.marked_board s.found_moves = some .finished) :
    (solveStep s).is_complete = true ∧ (solveStep s).is_full_solution = true := by
  unfold solveStep
  rw [h]
  exact ⟨rfl, rfl⟩

/-- One concrete solved run: on the completed-grid-minus-one board the first
step finds the hidden single 1 at (0,0), the second step finds Finished, and
the solve loop ends with the solved flag set.  Only the first step's search
is evaluated concretely; the saturation of the eighty given cells and of the
deduced cell is established through from_game_board_saturated. -/
lemma almostSolved_run :
    (solveLoop (9 * 81 + 1) (initSolver almostSolvedBoard)).is_full_solution = true := by
  have hdig := almostSolvedBoard_digits
  have hupper := from_game_board_le almostSolvedBoard hdig
  have h1 : find_next_move (from_game_board almostSolvedBoard) ∅ =
      some (.hiddenSingle (0, 0) .row 1) := by decide
  have hnm1 : (Move.hiddenSingle ((0, 0) : Coord) .row 1).compute_marks
      (from_game_board almostSolvedBoard) = compute_marks_from_placed_number (0, 0) 1 := rfl
  have hmb1 : ∀ c : Coord, c.1 < 9 → c.2 < 9 →
      add_marks (from_game_board almostSolvedBoard)
        ((Move.hiddenSingle (0, 0) .row 1).compute_marks
          (from_game_board almostSolvedBoard)) c = FULL_MARKS := by
    intro c hg1 hg2
    show (Move.hiddenSingle ((0, 0) : Coord) .row 1).compute_marks
        (from_game_board almostSolvedBoard) c ∪ from_game_board almostSolvedBoard c =
      FULL_MARKS
    rw [hnm1]
    by_cases h0 : c = ((0, 0) : Coord)
    · subst h0
      have hv : compute_marks_from_placed_number ((0, 0) : Coord) 1 ((0, 0) : Coord) =
          FULL_MARKS ∪ {1} := by
        unfold compute_marks_from_placed_number
        rw [if_pos rfl]
      rw [hv, Finset.union_eq_left.2 (Finset.singleton_subset_iff.2 (by decide)),
        Finset.union_eq_left.2 (hupper _)]
    · obtain ⟨n, hn⟩ := almostSolvedBoard_filled c hg1 hg2 h0
      rw [from_game_board_saturated almostSolvedBoard hdig c n hg1 hg2 hn]
      exact Finset.union_eq_right.2
        (compute_marks_from_placed_number_le (0, 0) 1 (by decide) (by decide) c)
  have h2 : ∀ af : Finset Move,
      find_next_move (add_marks (from_game_board almostSolvedBoard)
        ((Move.hiddenSingle (0, 0) .row 1).compute_marks
          (from_game_board almostSolvedBoard))) af = some .finished := by
    intro af
    have hfin : Finished.search (add_marks (from_game_board almostSolvedBoard)
        ((Move.hiddenSingle (0, 0) .row 1).compute_marks
          (from_game_board almostSolvedBoard))) af = some .finished := by
      unfold Finished.search
      rw [if_pos]
      refine List.all_eq_true.2 ?_
      intro cell hcell
      simp only [iter_board, List.mem_map] at hcell
      obtain ⟨c, hc, rfl⟩ := hcell
      obtain ⟨hg1, hg2⟩ := mem_allCoords.1 hc
      simp only [decide_eq_true_eq]
      exact hmb1 c hg1 hg2
    show MOVES_ORDER.findSome? _ = some Move.finished
    rw [show MOVES_ORDER = MoveKind.finished :: [MoveKind.hiddenSingle, .nakedSingle,
      .intersectionTrickPointing, .intersectionTrickClaiming, .hiddenDouble,
      .nakedDouble] from rfl, List.findSome?_cons_of_isSome _ (by rw [show
        MoveKind.finished.search (add_marks (from_game_board almostSolvedBoard)
          ((Move.hiddenSingle (0, 0) .row 1).compute_marks
            (from_game_board almostSolvedBoard))) af = some Move.finished from hfin]; rfl)]
    exact hfin
  have hc0 : (initSolver almostSolvedBoard).is_complete = false := rfl
  have h1p : find_next_move (initSolver almostSolvedBoard).marked_board
      (initSolver almostSolvedBoard).found_moves =
        some (.hiddenSingle (0, 0) .row 1) := h1
  obtain ⟨hm1, hf1, hcpr⟩ := solveStep_hiddenSingle_fields h1p
  have hc1 : (solveStep (initSolver almostSolvedBoard)).is_complete = false :=
    hcpr.trans hc0
  have h2p : find_next_move (solveStep (initSolver almostSolvedBoard)).marked_board
      (solveStep (initSolver almostSolvedBoard)).found_moves = some .finished := by
    rw [hm1, hf1]
    exact h2 _
  have hfin2 := solveStep_finished_fields h2p
  rw [solveLoop_succ_step hc0, show (9 * 81 : ℕ) = 728 + 1 by norm_num,
    solveLoop_succ_step hc1, solveLoop_of_complete hfin2.1]
  exact hfin2.2

/-- C3 (amended): when the solve loop ends with the solved flag set, the
solved values are recorded only in the MarkedBoard — every grid cell's marks
are saturated to the full digit set — while the GameBoard is left exactly as
it was passed in: the loop never writes a digit into the GameBoard. -/
theorem spec_C3_amended (fuel : ℕ) (gb : GameBoard)
    (h : (solveLoop fuel (initSolver gb)).is_full_solution = true) :
    (solveLoop fuel (initSolver gb)).game_board = gb ∧
      ∀ c : Coord, c.1 < 9 → c.2 < 9 →
        (solveLoop fuel (initSolver gb)).marked_board c = FULL_MARKS := by
  have hbase : (initSolver gb).is_full_solution = true →
      (initSolver gb).is_complete = true ∧
        ∀ c : Coord, c.1 < 9 → c.2 < 9 → (initSolver gb).marked_board c = FULL_MARKS := by
    intro hflag
    exact absurd hflag (by simp [initSolver])
  exact ⟨solveLoop_game fuel (initSolver gb),
    (solveLoop_solved_saturated fuel (initSolver gb) hbase h).2⟩

/-- C3 (witness for the amended claim): on the one-deduction-from-solved
board the loop ends solved; the game board is unchanged and cell (0,0) is
saturated in the marked board. -/
theorem spec_C3_amended_witness :
    (solveLoop (9 * 81 + 1) (initSolver almostSolvedBoard)).game_board =
        almostSolvedBoard ∧
      (solveLoop (9 * 81 + 1) (initSolver almostSolvedBoard)).marked_board (0, 0) =
        FULL_MARKS := by
  have h := spec_C3_amended (9 * 81 + 1) almostSolvedBoard almostSolved_run
  exact ⟨h.1, h.2 (0, 0) (by decide) (by decide)⟩

/-- C3 (counterexample): on the one-deduction-from-solved board the loop
terminates in the Solved state, yet the GameBoard still holds none at the
deduced cell (0,0): the solved value was never written into the GameBoard. -/
theorem spec_C3_counterexample :
    (solveLoop (9 * 81 + 1) (initSolver almostSolvedBoard)).is_full_solution = true ∧
      (solveLoop (9 * 81 + 1) (initSolver almostSolvedBoard)).game_board (0, 0) = none := by
  refine ⟨almostSolved_run, ?_⟩
  rw [solveLoop_game]
  decide
